import Mathlib

/-!
Verification of the admission-webhook dispatch core of
`extensions/pkg/webhook/handler.go` (package `webhook`).

The Go code is shallowly embedded: resources (`runtime.Object`) are values of
an arbitrary type `Obj`; in-place mutation becomes value passing (a Go deep
copy is the identity under value semantics); the external collaborators
(decoder, `meta.Accessor`, `equality.Semantic.DeepEqual`, `json.Marshal`,
`apiutil.GVKForObject`) are abstract operations bundled in `SchemeOps`.
Fallible Go calls return `Except String`.  Go maps keyed by
`GroupVersionKind` are association lists with unique keys (`putGVK` erases
the old binding); Go's unspecified map range order is made explicit where it
matters (see `HandlerBuilder.BuildWith`).
-/

/-- Mirrors `metav1.GroupVersionKind`: a (group, version, kind) triple with
structural equality (handler.go uses it as a map key). -/
structure GroupVersionKind where
  group : String
  version : String
  kind : String
deriving DecidableEq

/-- Mirrors `runtime.APIVersionInternal`, the distinguished internal /
unversioned version marker used by the fallback lookup (handler.go:130). -/
def APIVersionInternal : String := "__internal"

/-- Rendering of a GroupVersionKind used in the "unexpected request kind"
message (`ar.Kind.String()` in handler.go:136/150). -/
def GroupVersionKind.toText (g : GroupVersionKind) : String :=
  g.group ++ "/" ++ g.version ++ ", Kind=" ++ g.kind

/-- Canonical serialized form of a resource: a flat JSON object, i.e. a list
of (field name, value) pairs.  Stands for the `[]byte` output of
`json.Marshal` in handler.go:201/205; §4.5 of the spec requires this form to
be deterministic and canonical (here: strictly sorted field names, see
`Canonical`). -/
abbrev JsonObj : Type := List (String × Int)

/-- A single edit of a patch document: spec §6, "(operation, path, value)
edits".  Models the JSON-patch operations produced by the external
`admission.PatchResponseFromRaw` on flat objects. -/
inductive PatchOp where
  | add (path : String) (value : Int)
  | remove (path : String)
  | replace (path : String) (value : Int)
deriving DecidableEq

/-- The path (field name) an edit touches. -/
def PatchOp.key : PatchOp → String
  | .add p _ => p
  | .remove p => p
  | .replace p _ => p

/-- Mirrors `admission.Response` as used by handler.go: Allow with no patch
(`admission.ValidationResponse(true, "")`), Allow with a patch
(`admission.PatchResponseFromRaw`), or an error response with an HTTP status
code (`admission.Errored`). -/
inductive Response where
  | allowed (reason : String)
  | allowWithPatch (patch : List PatchOp)
  | errored (code : Nat) (msg : String)
deriving DecidableEq

/-- Whether a response is an Allow-with-patch response. -/
def Response.hasPatch : Response → Bool
  | .allowWithPatch _ => true
  | _ => false

/-- Whether a response is a Deny with client-error status 400
(`admission.Errored(http.StatusBadRequest, ...)`). -/
def Response.isDeny400 : Response → Bool
  | .errored 400 _ => true
  | _ => false

/-- Mirrors the part of `admission.Request` that handler.go reads: the
request's GroupVersionKind (`ar.Kind`), the raw new-object bytes
(`req.Object.Raw`) and the raw old-object bytes (`req.OldObject.Raw`, may be
empty).  Raw bytes are modelled as strings. -/
structure AdmissionRequest where
  kind : GroupVersionKind
  objectRaw : String
  oldObjectRaw : String

/-- The external collaborators handler.go calls, bundled: `decode raw t`
models `decoder.Decode(raw, nil, t.DeepCopyObject())`; `accessor` models
`meta.Accessor`; `deepEqual` models `equality.Semantic.DeepEqual`; `marshal`
models `json.Marshal` into the canonical form; `gvkFor` models
`apiutil.GVKForObject(t, scheme)`. -/
structure SchemeOps (Obj : Type) where
  decode : String → Obj → Except String Obj
  accessor : Obj → Except String Unit
  deepEqual : Obj → Obj → Bool
  marshal : Obj → Except String JsonObj
  gvkFor : Obj → Except String GroupVersionKind

/-- Modelled from the spec (§3, §4.3): the `Mutator` capability of package
`webhook` (its interface declaration is not under src/).  `Mutate obj old`
returns the possibly-altered new object (Go mutates `obj` in place through a
pointer).  `isValidatorAsserted` models the runtime type assertion
`m.(Validator)` of handler.go:198: it is true exactly when the stored handler
also implements the Validator interface, which the spec's Validator Adapter
guarantees for its wrappers (§4.4, §9 "explicit boolean flag"). -/
structure Mutator (Obj : Type) where
  Mutate : Obj → Option Obj → Except String Obj
  isValidatorAsserted : Bool

/-- Modelled from the spec (§3): the `Validator` capability (interface not
under src/): may inspect the resource and reject with an error.  Because Go
hands it a pointer, a misbehaving validator can still alter the resource in
memory, so `Validate` is given the same shape as `Mutate`. -/
structure Validator (Obj : Type) where
  Validate : Obj → Option Obj → Except String Obj

/-- Modelled from the spec (§4.4): `hybridValidator` (defined in this
repository outside src/) wraps a Validator as a Mutator; the wrapper
satisfies the Validator interface, so the dispatcher's type assertion at
handler.go:198 succeeds on it. -/
def hybridValidator {Obj : Type} (v : Validator Obj) : Mutator Obj :=
  { Mutate := v.Validate, isValidatorAsserted := true }

/-- Modelled from the spec (§3 Predicate): `extensionspredicate.EvalGeneric`
(defined in this repository outside src/) evaluates the Predicate Chain
against the decoded resource, AND-combined. -/
def EvalGeneric {Obj : Type} (obj : Obj) (predicates : List (Obj → Bool)) : Bool :=
  predicates.all (fun p => p obj)

/-- Lookup in a GroupVersionKind-keyed association list (a Go map read
`m[gvk]`). -/
def lookupGVK {α : Type} (m : List (GroupVersionKind × α)) (k : GroupVersionKind) : Option α :=
  (m.find? (fun p => decide (p.1 = k))).map Prod.snd

/-- The fallback scan of handler.go:129-134/143-148: the first registered
entry whose GroupVersionKind has the internal version marker and the
request's group and kind.  (Go ranges over the map in unspecified order and
takes the first hit; here the list order stands for that iteration order.) -/
def findInternal {α : Type} (m : List (GroupVersionKind × α)) (k : GroupVersionKind) : Option α :=
  (m.find? (fun p =>
    decide (p.1.version = APIVersionInternal ∧ p.1.group = k.group ∧ p.1.kind = k.kind))).map
    Prod.snd

/-- Resolution of a request kind against a registry: exact match first,
otherwise the internal-version fallback (handler.go:126-152). -/
def resolveGVK {α : Type} (m : List (GroupVersionKind × α)) (k : GroupVersionKind) : Option α :=
  match lookupGVK m k with
  | some v => some v
  | none => findInternal m k

/-- Removes every binding of key `k` (the overwrite part of a Go map
assignment). -/
def eraseGVK {α : Type} (k : GroupVersionKind) (m : List (GroupVersionKind × α)) :
    List (GroupVersionKind × α) :=
  m.filter (fun p => decide (¬ p.1 = k))

/-- Go map assignment `m[k] = v`: the new binding replaces any previous
binding of `k`. -/
def putGVK {α : Type} (m : List (GroupVersionKind × α)) (k : GroupVersionKind) (v : α) :
    List (GroupVersionKind × α) :=
  (k, v) :: eraseGVK k m

/-- The old-object step of handler.go:175-184: only when the raw old-object
bytes are non-empty are they decoded (into a fresh deep copy of the
prototype); an empty raw means no old object. -/
def decodeOld {Obj : Type} (s : SchemeOps Obj) (t : Obj) (req : AdmissionRequest) :
    Except String (Option Obj) :=
  if req.oldObjectRaw.length ≠ 0 then
    match s.decode req.oldObjectRaw t with
    | .error e => .error e
    | .ok o => .ok (some o)
  else
    .ok none

/-- Canonical serialized form (spec §4.5): field names strictly increasing,
so that two semantically equal resources serialize identically. -/
def Canonical (d : JsonObj) : Prop :=
  List.Pairwise (fun p q : String × Int => p.1 < q.1) d

/-- Modelled from the spec (§6): the patch document from a "before" to an
"after" canonical serialized form, as the external json-patch library
computes it for flat objects — remove fields that disappeared, replace
fields whose value changed, add fields that appeared.  Both inputs are
walked in sorted field order. -/
def createPatch (before after : JsonObj) : List PatchOp :=
  match before, after with
  | [], [] => []
  | [], (k, v) :: a => .add k v :: createPatch [] a
  | (k, _) :: b, [] => .remove k :: createPatch b []
  | (k1, v1) :: b, (k2, v2) :: a =>
    if k1 = k2 then
      if v1 = v2 then createPatch b a else .replace k1 v2 :: createPatch b a
    else if k1 < k2 then
      .remove k1 :: createPatch b ((k2, v2) :: a)
    else
      .add k2 v2 :: createPatch ((k1, v1) :: b) a
termination_by (before.length + after.length)

/-- Insertion into a canonical serialized form, keeping field order. -/
def insertSorted (k : String) (v : Int) : JsonObj → JsonObj
  | [] => [(k, v)]
  | (k1, v1) :: rest =>
    if k < k1 then (k, v) :: (k1, v1) :: rest
    else if k = k1 then (k, v) :: rest
    else (k1, v1) :: insertSorted k v rest

/-- Removal of a field from a serialized form. -/
def removeKey (k : String) (d : JsonObj) : JsonObj :=
  d.filter (fun p => decide (¬ p.1 = k))

/-- Application of one patch edit to a serialized form. -/
def applyOp (d : JsonObj) : PatchOp → JsonObj
  | .add k v => insertSorted k v d
  | .remove k => removeKey k d
  | .replace k v => insertSorted k v d

/-- Application of a patch document, edit by edit. -/
def applyPatch (ops : List PatchOp) (d : JsonObj) : JsonObj :=
  ops.foldl applyOp d

/-- Models `admission.PatchResponseFromRaw(oldMarshaled, newMarshaled)` from
the external admission library on canonical flat objects: an allowed response
carrying the patch document from the old serialized form to the new one
(spec §6). -/
def PatchResponseFromRaw (oldRaw newRaw : JsonObj) : Response :=
  .allowWithPatch (createPatch oldRaw newRaw)

/-- `handle` of handler.go:157-215: decode the new object, get its accessor,
decode the old object when present, run the predicates, invoke the mutator
on a deep copy, and shape the response (patch only when the handler is not a
Validator and the mutation changed the object). -/
def handle {Obj : Type} (m : Mutator Obj) (t : Obj) (s : SchemeOps Obj)
    (predicates : List (Obj → Bool)) (req : AdmissionRequest) : Response :=
  match s.decode req.objectRaw t with
  | .error e => .errored 400 ("could not decode request: " ++ e)
  | .ok obj =>
    match s.accessor obj with
    | .error e => .errored 400 ("could not get accessor: " ++ e)
    | .ok _ =>
      match decodeOld s t req with
      | .error e => .errored 400 ("could not decode old object: " ++ e)
      | .ok oldObj =>
        if !EvalGeneric obj predicates then
          .allowed ""
        else
          match m.Mutate obj oldObj with
          | .error e => .errored 400 e
          | .ok newObj =>
            if !m.isValidatorAsserted && !s.deepEqual obj newObj then
              match s.marshal obj with
              | .error e => .errored 500 e
              | .ok oldObjMarshaled =>
                match s.marshal newObj with
                | .error e => .errored 500 e
                | .ok newObjMarshaled => PatchResponseFromRaw oldObjMarshaled newObjMarshaled
            else
              .allowed ""

/-- The built dispatcher (struct `handler` of handler.go:102-109): the two
registries, the predicate chain, and the decoding/comparison operations. -/
structure handler (Obj : Type) where
  typesMap : List (GroupVersionKind × Obj)
  mutatorMap : List (GroupVersionKind × Mutator Obj)
  predicates : List (Obj → Bool)
  ops : SchemeOps Obj

/-- `handler.Handle` of handler.go:122-155: resolve prototype and mutator for
the request kind (exact match, else internal fallback; either miss is the
"unexpected request kind" client error), then dispatch to `handle`. -/
def handler.Handle {Obj : Type} (h : handler Obj) (req : AdmissionRequest) : Response :=
  match resolveGVK h.typesMap req.kind with
  | none => .errored 400 ("unexpected request kind " ++ req.kind.toText)
  | some t =>
    match resolveGVK h.mutatorMap req.kind with
    | none => .errored 400 ("unexpected request kind " ++ req.kind.toText)
    | some m => handle m t h.ops h.predicates req

/-- `buildTypesMap` of handler.go:218-231 (with the accumulator made
explicit, Go starts from an empty map): derive each type's
GroupVersionKind via the scheme and enter the type, keyed by it, into the
map; the first unresolvable type aborts the build. -/
def buildTypesMap {Obj : Type} (s : SchemeOps Obj) :
    List Obj → List (GroupVersionKind × Obj) → Except String (List (GroupVersionKind × Obj))
  | [], acc => .ok acc
  | t :: rest, acc =>
    match s.gvkFor t with
    | .error e => .error ("could not get GroupVersionKind from object: " ++ e)
    | .ok gvk => buildTypesMap s rest (putGVK acc gvk t)

/-- The inner loop of `Build` (handler.go:92-95): every entry of one
mutator's types map is written into both registries under the same key. -/
def insertEntries {Obj : Type} (m : Mutator Obj) :
    List (GroupVersionKind × Obj) → List (GroupVersionKind × Obj) →
    List (GroupVersionKind × Mutator Obj) →
    List (GroupVersionKind × Obj) × List (GroupVersionKind × Mutator Obj)
  | [], tm, mm => (tm, mm)
  | (g, o) :: rest, tm, mm => insertEntries m rest (putGVK tm g o) (putGVK mm g m)

/-- The outer loop of `Build` (handler.go:86-96), processing the builder's
(mutator, types) entries in the given sequence. -/
def buildLoop {Obj : Type} (s : SchemeOps Obj) :
    List (Mutator Obj × List Obj) → List (GroupVersionKind × Obj) →
    List (GroupVersionKind × Mutator Obj) →
    Except String (List (GroupVersionKind × Obj) × List (GroupVersionKind × Mutator Obj))
  | [], tm, mm => .ok (tm, mm)
  | (m, ts) :: rest, tm, mm =>
    match buildTypesMap s ts [] with
    | .error e => .error e
    | .ok tmOfM =>
      let maps := insertEntries m tmOfM tm mm
      buildLoop s rest maps.1 maps.2

/-- `HandlerBuilder` of handler.go:40-45.  Go keys `mutatorMap` by the
mutator interface value; here it is the list of registration calls in
order.  (Registering the same mutator value twice appends to one Go map
entry; as `Build` ranges over that map in unspecified order anyway, keeping
the calls as separate list entries covers the same behaviors.) -/
structure HandlerBuilder (Obj : Type) where
  mutatorMap : List (Mutator Obj × List Obj)
  predicates : List (Obj → Bool)
  scheme : SchemeOps Obj

/-- `NewBuilder` of handler.go:48-54 (manager and logger reduced to the
scheme operations the dispatch logic uses). -/
def NewBuilder {Obj : Type} (s : SchemeOps Obj) : HandlerBuilder Obj :=
  { mutatorMap := [], predicates := [], scheme := s }

/-- `HandlerBuilder.WithMutator` of handler.go:57-61. -/
def HandlerBuilder.WithMutator {Obj : Type} (b : HandlerBuilder Obj) (mutator : Mutator Obj)
    (types : List Obj) : HandlerBuilder Obj :=
  { b with mutatorMap := b.mutatorMap ++ [(mutator, types)] }

/-- `HandlerBuilder.WithValidator` of handler.go:64-68: the validator is
wrapped through `hybridValidator` and registered like a mutator. -/
def HandlerBuilder.WithValidator {Obj : Type} (b : HandlerBuilder Obj) (v : Validator Obj)
    (types : List Obj) : HandlerBuilder Obj :=
  b.WithMutator (hybridValidator v) types

/-- `HandlerBuilder.WithPredicates` of handler.go:71-74. -/
def HandlerBuilder.WithPredicates {Obj : Type} (b : HandlerBuilder Obj)
    (ps : List (Obj → Bool)) : HandlerBuilder Obj :=
  { b with predicates := b.predicates ++ ps }

/-- `HandlerBuilder.Build` of handler.go:77-100.  Go ranges over the builder
map in unspecified order, so the order in which the registered (mutator,
types) entries are processed is an input here: a run of the Go code
corresponds to `b.BuildWith entries` for some permutation `entries` of
`b.mutatorMap`. -/
def HandlerBuilder.BuildWith {Obj : Type} (b : HandlerBuilder Obj)
    (entries : List (Mutator Obj × List Obj)) : Except String (handler Obj) :=
  match buildLoop b.scheme entries [] [] with
  | .error e => .error e
  | .ok maps =>
    .ok { typesMap := maps.1, mutatorMap := maps.2, predicates := b.predicates, ops := b.scheme }

/-- The last type in `ts` that the scheme resolves to `g` (the winner of the
overwrites `typesMap[gvk] = t` inside one `buildTypesMap` call). -/
def lastProtoFor {Obj : Type} (s : SchemeOps Obj) (g : GroupVersionKind) : List Obj → Option Obj
  | [] => none
  | t :: rest =>
    match lastProtoFor s g rest with
    | some o => some o
    | none =>
      match s.gvkFor t with
      | .ok g2 => if g2 = g then some t else none
      | .error _ => none

/-- The (prototype, mutator) pair that wins the key `g` when the builder
entries are processed in list order: the last entry declaring `g`, with its
last type resolving to `g`. -/
def buildWinner {Obj : Type} (s : SchemeOps Obj) (g : GroupVersionKind) :
    List (Mutator Obj × List Obj) → Option (Obj × Mutator Obj)
  | [] => none
  | (m, ts) :: rest =>
    match buildWinner s g rest with
    | some w => some w
    | none => (lastProtoFor s g ts).map (fun o => (o, m))

/-- Concrete kind used by the witnesses: the spec §8 example type
(group "apps", version "v1", kind "Widget"). -/
def widgetGVK : GroupVersionKind := { group := "apps", version := "v1", kind := "Widget" }

/-- The same group and kind registered under the internal version marker. -/
def widgetInternalGVK : GroupVersionKind :=
  { group := "apps", version := APIVersionInternal, kind := "Widget" }

/-- Concrete scheme operations over `Int` resources (a Widget is its `size`
field): bytes "one"/"two" decode to 1/2, everything else is malformed; the
accessor always succeeds; equality and serialization are the evident ones;
every type resolves to `widgetGVK`. -/
def intScheme : SchemeOps Int :=
  { decode := fun raw _ => if raw = "one" then .ok 1 else if raw = "two" then .ok 2
      else .error "bad bytes"
    accessor := fun _ => .ok ()
    deepEqual := fun a b => decide (a = b)
    marshal := fun n => .ok [("size", n)]
    gvkFor := fun _ => .ok widgetGVK }

/-- `intScheme` with a failing serializer (for the response-shaping edge
case where `json.Marshal` errors). -/
def marshalFailScheme : SchemeOps Int :=
  { intScheme with marshal := fun _ => .error "marshal boom" }

/-- `intScheme` with a failing object accessor (for the `meta.Accessor`
failure path of handler.go:168-173). -/
def accessorFailScheme : SchemeOps Int :=
  { intScheme with accessor := fun _ => .error "no object meta" }

/-- A mutator that leaves the resource unchanged. -/
def idMutator : Mutator Int := { Mutate := fun o _ => .ok o, isValidatorAsserted := false }

/-- The spec §8 example mutator: doubles the Widget's size. -/
def doubleMutator : Mutator Int := { Mutate := fun o _ => .ok (o * 2), isValidatorAsserted := false }

/-- A validator whose wrapped logic even alters the resource in memory (the
case the Validator Adapter must suppress from the response). -/
def alteringValidator : Validator Int := { Validate := fun o _ => .ok (o + 41) }

example : handle doubleMutator 0 intScheme [] ⟨widgetGVK, "one", ""⟩ =
    .allowWithPatch [.replace "size" 2] := by
  simp [handle, doubleMutator, intScheme, decodeOld, EvalGeneric, PatchResponseFromRaw,
    createPatch]

example : handle idMutator 0 intScheme [] ⟨widgetGVK, "one", ""⟩ = .allowed "" := by decide

example : handle (hybridValidator alteringValidator) 0 intScheme [] ⟨widgetGVK, "one", ""⟩ =
    .allowed "" := by decide

example : handle doubleMutator 0 intScheme [] ⟨widgetGVK, "bad", ""⟩ =
    .errored 400 "could not decode request: bad bytes" := by decide

example : handle doubleMutator 0 intScheme [] ⟨widgetGVK, "one", "bad"⟩ =
    .errored 400 "could not decode old object: bad bytes" := by decide

example : applyPatch (createPatch [("size", 1)] [("size", 2)]) [("size", 1)] = [("size", 2)] := by
  simp [createPatch, applyPatch, applyOp, insertSorted]

theorem applyPatch_nil (d : JsonObj) : applyPatch [] d = d := rfl

theorem applyPatch_cons_op (op : PatchOp) (ops : List PatchOp) (d : JsonObj) :
    applyPatch (op :: ops) d = applyPatch ops (applyOp d op) := rfl

theorem insertSorted_lt_head (k : String) (v : Int) (k1 : String) (v1 : Int) (d : JsonObj)
    (h : k < k1) : insertSorted k v ((k1, v1) :: d) = (k, v) :: (k1, v1) :: d := by
  simp [insertSorted, h]

theorem insertSorted_eq_head (k : String) (v v1 : Int) (d : JsonObj) :
    insertSorted k v ((k, v1) :: d) = (k, v) :: d := by
  simp [insertSorted]

theorem insertSorted_gt_head (k : String) (v : Int) (k1 : String) (v1 : Int) (d : JsonObj)
    (h : k1 < k) : insertSorted k v ((k1, v1) :: d) = (k1, v1) :: insertSorted k v d := by
  have h1 : ¬ k < k1 := not_lt_of_gt h
  have h2 : ¬ k = k1 := ne_of_gt h
  simp [insertSorted, h1, h2]

theorem removeKey_cons_ne (k k1 : String) (v1 : Int) (d : JsonObj) (h : ¬ k1 = k) :
    removeKey k ((k1, v1) :: d) = (k1, v1) :: removeKey k d := by
  simp [removeKey, h]

theorem removeKey_head (k : String) (v : Int) (d : JsonObj) :
    removeKey k ((k, v) :: d) = removeKey k d := by
  simp [removeKey]

theorem removeKey_of_lb (k : String) (d : JsonObj) (h : ∀ p ∈ d, k < p.1) :
    removeKey k d = d := by
  unfold removeKey
  rw [List.filter_eq_self]
  intro p hp
  simpa using (h p hp).ne'

/-- An edit whose path is above a form's least field leaves that leading
field in place. -/
theorem applyOp_keeps_head (k : String) (v : Int) (d : JsonObj) (op : PatchOp)
    (h : k < op.key) : applyOp ((k, v) :: d) op = (k, v) :: applyOp d op := by
  cases op with
  | add k2 v2 => exact insertSorted_gt_head k2 v2 k v d h
  | remove k2 => exact removeKey_cons_ne k2 k v d (ne_of_lt h)
  | replace k2 v2 => exact insertSorted_gt_head k2 v2 k v d h

/-- A patch all of whose paths are above a form's least field leaves that
leading field in place. -/
theorem applyPatch_keeps_head (ops : List PatchOp) (k : String) (v : Int) (d : JsonObj)
    (h : ∀ op ∈ ops, k < op.key) :
    applyPatch ops ((k, v) :: d) = (k, v) :: applyPatch ops d := by
  induction ops generalizing d with
  | nil => rfl
  | cons op rest ih =>
    rw [applyPatch_cons_op, applyPatch_cons_op,
      applyOp_keeps_head k v d op (h op (List.mem_cons_self op rest))]
    exact ih (applyOp d op) (fun o ho => h o (List.mem_cons_of_mem op ho))

/-- Every path the diff of two forms touches is bounded below by any common
lower bound of their fields. -/
theorem createPatch_key_lb (lb : String) (b a : JsonObj) :
    (∀ p ∈ b, lb < p.1) → (∀ p ∈ a, lb < p.1) → ∀ op ∈ createPatch b a, lb < op.key := by
  induction b, a using createPatch.induct with
  | case1 =>
    intro _ _ op hop
    simp [createPatch] at hop
  | case2 k v a ih =>
    intro _ ha op hop
    rw [createPatch] at hop
    rcases List.mem_cons.mp hop with h1 | h1
    · subst h1
      exact ha (k, v) (List.mem_cons_self _ _)
    · exact ih (by simp) (fun p hp => ha p (List.mem_cons_of_mem _ hp)) op h1
  | case3 k v b ih =>
    intro hb _ op hop
    rw [createPatch] at hop
    rcases List.mem_cons.mp hop with h1 | h1
    · subst h1
      exact hb (k, v) (List.mem_cons_self _ _)
    · exact ih (fun p hp => hb p (List.mem_cons_of_mem _ hp)) (by simp) op h1
  | case4 b k2 v2 a ih =>
    intro hb ha op hop
    rw [createPatch] at hop
    simp only [if_pos rfl] at hop
    exact ih (fun p hp => hb p (List.mem_cons_of_mem _ hp))
      (fun p hp => ha p (List.mem_cons_of_mem _ hp)) op hop
  | case5 v1 b k2 v2 a hne ih =>
    intro hb ha op hop
    rw [createPatch] at hop
    simp only [if_pos rfl, if_neg hne] at hop
    rcases List.mem_cons.mp hop with h1 | h1
    · subst h1
      exact ha (k2, v2) (List.mem_cons_self _ _)
    · exact ih (fun p hp => hb p (List.mem_cons_of_mem _ hp))
        (fun p hp => ha p (List.mem_cons_of_mem _ hp)) op h1
  | case6 k1 v1 b k2 v2 a hne hlt ih =>
    intro hb ha op hop
    rw [createPatch] at hop
    simp only [if_neg hne, if_pos hlt] at hop
    rcases List.mem_cons.mp hop with h1 | h1
    · subst h1
      exact hb (k1, v1) (List.mem_cons_self _ _)
    · exact ih (fun p hp => hb p (List.mem_cons_of_mem _ hp)) ha op h1
  | case7 k1 v1 b k2 v2 a hne hnlt ih =>
    intro hb ha op hop
    rw [createPatch] at hop
    simp only [if_neg hne, if_neg hnlt] at hop
    rcases List.mem_cons.mp hop with h1 | h1
    · subst h1
      exact ha (k2, v2) (List.mem_cons_self _ _)
    · exact ih hb (fun p hp => ha p (List.mem_cons_of_mem _ hp)) op h1

/-- Round-trip law of the patch document (spec §6/§8): on canonical forms,
applying the computed patch to the "before" form yields exactly the "after"
form. -/
theorem applyPatch_createPatch (b a : JsonObj) :
    Canonical b → Canonical a → applyPatch (createPatch b a) b = a := by
  induction b, a using createPatch.induct with
  | case1 =>
    intro _ _
    rw [createPatch]
    rfl
  | case2 k v a ih =>
    intro _ ha
    have hlba : ∀ p ∈ a, k < p.1 := (List.pairwise_cons.mp ha).1
    rw [createPatch, applyPatch_cons_op]
    have h1 : applyOp [] (PatchOp.add k v) = (k, v) :: ([] : JsonObj) := rfl
    rw [h1, applyPatch_keeps_head _ k v [] (createPatch_key_lb k [] a (by simp) hlba),
      ih List.Pairwise.nil (List.pairwise_cons.mp ha).2]
  | case3 k v b ih =>
    intro hb _
    have hlbb : ∀ p ∈ b, k < p.1 := (List.pairwise_cons.mp hb).1
    rw [createPatch, applyPatch_cons_op]
    have h1 : applyOp ((k, v) :: b) (PatchOp.remove k) = b := by
      show removeKey k ((k, v) :: b) = b
      rw [removeKey_head, removeKey_of_lb k b hlbb]
    rw [h1, ih (List.pairwise_cons.mp hb).2 List.Pairwise.nil]
  | case4 b k2 v2 a ih =>
    intro hb ha
    have hlbb : ∀ p ∈ b, k2 < p.1 := (List.pairwise_cons.mp hb).1
    have hlba : ∀ p ∈ a, k2 < p.1 := (List.pairwise_cons.mp ha).1
    rw [createPatch]
    simp only [if_true]
    rw [applyPatch_keeps_head _ k2 v2 b (createPatch_key_lb k2 b a hlbb hlba),
      ih (List.pairwise_cons.mp hb).2 (List.pairwise_cons.mp ha).2]
  | case5 v1 b k2 v2 a hne ih =>
    intro hb ha
    have hlbb : ∀ p ∈ b, k2 < p.1 := (List.pairwise_cons.mp hb).1
    have hlba : ∀ p ∈ a, k2 < p.1 := (List.pairwise_cons.mp ha).1
    rw [createPatch]
    simp only [if_true, if_neg hne]
    rw [applyPatch_cons_op]
    have h1 : applyOp ((k2, v1) :: b) (PatchOp.replace k2 v2) = (k2, v2) :: b :=
      insertSorted_eq_head k2 v2 v1 b
    rw [h1, applyPatch_keeps_head _ k2 v2 b (createPatch_key_lb k2 b a hlbb hlba),
      ih (List.pairwise_cons.mp hb).2 (List.pairwise_cons.mp ha).2]
  | case6 k1 v1 b k2 v2 a hne hlt ih =>
    intro hb ha
    have hlbb : ∀ p ∈ b, k1 < p.1 := (List.pairwise_cons.mp hb).1
    rw [createPatch]
    simp only [if_neg hne, if_pos hlt]
    rw [applyPatch_cons_op]
    have h1 : applyOp ((k1, v1) :: b) (PatchOp.remove k1) = b := by
      show removeKey k1 ((k1, v1) :: b) = b
      rw [removeKey_head, removeKey_of_lb k1 b hlbb]
    rw [h1, ih (List.pairwise_cons.mp hb).2 ha]
  | case7 k1 v1 b k2 v2 a hne hnlt ih =>
    intro hb ha
    have hk : k2 < k1 := lt_of_le_of_ne (le_of_not_lt hnlt) (fun h => hne h.symm)
    have hlbb : ∀ p ∈ b, k1 < p.1 := (List.pairwise_cons.mp hb).1
    have hlba : ∀ p ∈ a, k2 < p.1 := (List.pairwise_cons.mp ha).1
    have hlbB : ∀ p ∈ (k1, v1) :: b, k2 < p.1 := by
      intro p hp
      rcases List.mem_cons.mp hp with h1 | h1
      · rw [h1]
        exact hk
      · exact lt_trans hk (hlbb p h1)
    rw [createPatch]
    simp only [if_neg hne, if_neg hnlt]
    rw [applyPatch_cons_op]
    have h1 : applyOp ((k1, v1) :: b) (PatchOp.add k2 v2) = (k2, v2) :: (k1, v1) :: b :=
      insertSorted_lt_head k2 v2 k1 v1 b hk
    rw [h1, applyPatch_keeps_head _ k2 v2 _ (createPatch_key_lb k2 ((k1, v1) :: b) a hlbB hlba),
      ih hb (List.pairwise_cons.mp ha).2]

theorem lookupGVK_erase_ne {α : Type} (m : List (GroupVersionKind × α)) (k k2 : GroupVersionKind)
    (h : ¬ k2 = k) : lookupGVK (eraseGVK k m) k2 = lookupGVK m k2 := by
  induction m with
  | nil => rfl
  | cons p rest ih =>
    by_cases hp : p.1 = k
    · have hfilter : eraseGVK k (p :: rest) = eraseGVK k rest := by
        simp [eraseGVK, List.filter_cons, hp]
      have hhead : ¬ p.1 = k2 := by
        rw [hp]
        exact fun hc => h hc.symm
      rw [hfilter, ih]
      unfold lookupGVK
      rw [List.find?_cons_of_neg _ (by simpa using hhead)]
    · have hfilter : eraseGVK k (p :: rest) = p :: eraseGVK k rest := by
        simp [eraseGVK, List.filter_cons, hp]
      rw [hfilter]
      by_cases h3 : p.1 = k2
      · unfold lookupGVK
        rw [List.find?_cons_of_pos _ (by simpa using h3),
          List.find?_cons_of_pos _ (by simpa using h3)]
      · unfold lookupGVK
        rw [List.find?_cons_of_neg _ (by simpa using h3),
          List.find?_cons_of_neg _ (by simpa using h3)]
        exact ih

theorem lookupGVK_put {α : Type} (m : List (GroupVersionKind × α)) (k k2 : GroupVersionKind)
    (v : α) : lookupGVK (putGVK m k v) k2 = if k2 = k then some v else lookupGVK m k2 := by
  by_cases h : k2 = k
  · subst h
    rw [if_pos rfl]
    unfold putGVK lookupGVK
    rw [List.find?_cons_of_pos _ (by simp)]
    rfl
  · have h2 : ¬ k = k2 := fun hc => h hc.symm
    rw [if_neg h]
    unfold putGVK lookupGVK
    rw [List.find?_cons_of_neg _ (by simpa using h2)]
    exact lookupGVK_erase_ne m k k2 h

theorem lookupGVK_eq_none {α : Type} (m : List (GroupVersionKind × α)) (g : GroupVersionKind)
    (h : g ∉ m.map Prod.fst) : lookupGVK m g = none := by
  unfold lookupGVK
  rw [Option.map_eq_none', List.find?_eq_none]
  intro p hp
  simp only [decide_eq_true_eq]
  intro hpk
  exact h (List.mem_map.mpr ⟨p, hp, hpk⟩)

theorem keysNodup_put {α : Type} (m : List (GroupVersionKind × α)) (k : GroupVersionKind) (v : α)
    (h : (m.map Prod.fst).Nodup) : ((putGVK m k v).map Prod.fst).Nodup := by
  show (((k, v) :: eraseGVK k m).map Prod.fst).Nodup
  rw [List.map_cons]
  refine List.nodup_cons.mpr ⟨?_, ?_⟩
  · intro hmem
    rcases List.mem_map.mp hmem with ⟨p, hp, hpk⟩
    have := List.of_mem_filter hp
    simp only [decide_eq_true_eq] at this
    exact this hpk
  · exact h.sublist (List.Sublist.map Prod.fst (List.filter_sublist m))

theorem insertEntries_lookup {Obj : Type} (m : Mutator Obj)
    (entries : List (GroupVersionKind × Obj)) (tm : List (GroupVersionKind × Obj))
    (mm : List (GroupVersionKind × Mutator Obj)) (g : GroupVersionKind)
    (hnd : (entries.map Prod.fst).Nodup) :
    lookupGVK (insertEntries m entries tm mm).1 g =
      (match lookupGVK entries g with
       | some o => some o
       | none => lookupGVK tm g) ∧
    lookupGVK (insertEntries m entries tm mm).2 g =
      (match lookupGVK entries g with
       | some _ => some m
       | none => lookupGVK mm g) := by
  induction entries generalizing tm mm with
  | nil => exact ⟨rfl, rfl⟩
  | cons p rest ih =>
    obtain ⟨g0, o0⟩ := p
    have hnotin : g0 ∉ rest.map Prod.fst := (List.nodup_cons.mp hnd).1
    have hndr : (rest.map Prod.fst).Nodup := (List.nodup_cons.mp hnd).2
    have hstep : insertEntries m ((g0, o0) :: rest) tm mm
        = insertEntries m rest (putGVK tm g0 o0) (putGVK mm g0 m) := rfl
    rw [hstep]
    rcases ih (putGVK tm g0 o0) (putGVK mm g0 m) hndr with ⟨ih1, ih2⟩
    by_cases hg : g = g0
    · subst hg
      have hrest : lookupGVK rest g = none := lookupGVK_eq_none rest g hnotin
      have hhead : lookupGVK ((g, o0) :: rest) g = some o0 := by
        unfold lookupGVK
        rw [List.find?_cons_of_pos _ (by simp)]
        rfl
      constructor
      · rw [ih1, hrest, hhead, lookupGVK_put, if_pos rfl]
      · rw [ih2, hrest, hhead, lookupGVK_put, if_pos rfl]
    · have hg0 : ¬ g0 = g := fun hc => hg hc.symm
      have hhead : lookupGVK ((g0, o0) :: rest) g = lookupGVK rest g := by
        unfold lookupGVK
        rw [List.find?_cons_of_neg _ (by simpa using hg0)]
      constructor
      · rw [ih1, hhead, lookupGVK_put, if_neg hg]
      · rw [ih2, hhead, lookupGVK_put, if_neg hg]

theorem buildTypesMap_lookup {Obj : Type} (s : SchemeOps Obj) (ts : List Obj)
    (acc r : List (GroupVersionKind × Obj)) (h : buildTypesMap s ts acc = .ok r)
    (g : GroupVersionKind) :
    lookupGVK r g =
      (match lastProtoFor s g ts with
       | some o => some o
       | none => lookupGVK acc g) := by
  induction ts generalizing acc with
  | nil =>
    have hr : acc = r := by
      simpa [buildTypesMap] using h
    subst hr
    rfl
  | cons t rest ih =>
    rw [buildTypesMap] at h
    cases hgvk : s.gvkFor t with
    | error e =>
      rw [hgvk] at h
      exact absurd h (by simp)
    | ok gvk =>
      rw [hgvk] at h
      rw [ih (putGVK acc gvk t) h, lastProtoFor]
      cases hrest : lastProtoFor s g rest with
      | some o => rfl
      | none =>
        rw [lookupGVK_put, hgvk]
        by_cases hgg : gvk = g
        · subst hgg
          simp
        · have hgg2 : ¬ g = gvk := fun hc => hgg hc.symm
          simp [hgg, hgg2]

theorem buildTypesMap_nodup {Obj : Type} (s : SchemeOps Obj) (ts : List Obj)
    (acc r : List (GroupVersionKind × Obj)) (h : buildTypesMap s ts acc = .ok r)
    (hnd : (acc.map Prod.fst).Nodup) : (r.map Prod.fst).Nodup := by
  induction ts generalizing acc with
  | nil =>
    have hr : acc = r := by
      simpa [buildTypesMap] using h
    subst hr
    exact hnd
  | cons t rest ih =>
    rw [buildTypesMap] at h
    cases hgvk : s.gvkFor t with
    | error e =>
      rw [hgvk] at h
      exact absurd h (by simp)
    | ok gvk =>
      rw [hgvk] at h
      exact ih (putGVK acc gvk t) h (keysNodup_put acc gvk t hnd)

theorem buildLoop_lookup {Obj : Type} (s : SchemeOps Obj)
    (entries : List (Mutator Obj × List Obj)) (tm tm2 : List (GroupVersionKind × Obj))
    (mm mm2 : List (GroupVersionKind × Mutator Obj))
    (h : buildLoop s entries tm mm = .ok (tm2, mm2)) (g : GroupVersionKind) :
    lookupGVK tm2 g =
      (match buildWinner s g entries with
       | some w => some w.1
       | none => lookupGVK tm g) ∧
    lookupGVK mm2 g =
      (match buildWinner s g entries with
       | some w => some w.2
       | none => lookupGVK mm g) := by
  induction entries generalizing tm mm with
  | nil =>
    simp only [buildLoop, Except.ok.injEq, Prod.mk.injEq] at h
    obtain ⟨h1, h2⟩ := h
    subst h1
    subst h2
    exact ⟨rfl, rfl⟩
  | cons e rest ih =>
    obtain ⟨m, ts⟩ := e
    rw [buildLoop] at h
    cases htm : buildTypesMap s ts [] with
    | error e2 =>
      rw [htm] at h
      exact absurd h (by simp)
    | ok tmOfM =>
      rw [htm] at h
      obtain ⟨ih1, ih2⟩ := ih (insertEntries m tmOfM tm mm).1 (insertEntries m tmOfM tm mm).2 h
      have hnd : (tmOfM.map Prod.fst).Nodup :=
        buildTypesMap_nodup s ts [] tmOfM htm (by simp)
      obtain ⟨he1, he2⟩ := insertEntries_lookup m tmOfM tm mm g hnd
      have hlp2 : lookupGVK tmOfM g = lastProtoFor s g ts := by
        rw [buildTypesMap_lookup s ts [] tmOfM htm g]
        cases lastProtoFor s g ts <;> rfl
      rw [buildWinner]
      cases hbw : buildWinner s g rest with
      | some w => exact ⟨by rw [ih1, hbw], by rw [ih2, hbw]⟩
      | none =>
        constructor
        · rw [ih1, hbw, he1, hlp2]
          cases lastProtoFor s g ts <;> rfl
        · rw [ih2, hbw, he2, hlp2]
          cases lastProtoFor s g ts <;> rfl

/-- C1: a handler registered through the Validator Adapter (`WithValidator`
stores `hybridValidator v`) never produces an Allow-with-patch response, for
every request, whatever the wrapped logic does to the resource in memory
(handler.go:198-200: the patch branch requires the Validator type assertion
to fail). -/
theorem validator_never_patches {Obj : Type} (v : Validator Obj) (t : Obj) (s : SchemeOps Obj)
    (predicates : List (Obj → Bool)) (req : AdmissionRequest) :
    (handle (hybridValidator v) t s predicates req).hasPatch = false := by
  unfold handle
  repeat' first
  | rfl
  | split

/-- C10: when the new object decodes but `meta.Accessor` fails on it, the
dispatcher answers Deny(400) with the accessor error, for every mutator and
predicate chain — the old object is not yet decoded and neither predicates
nor the mutator run (handler.go:168-173). -/
theorem accessor_failure_denies {Obj : Type} (s : SchemeOps Obj) (t : Obj)
    (predicates : List (Obj → Bool)) (req : AdmissionRequest) (obj : Obj) (e : String)
    (m : Mutator Obj)
    (hdec : s.decode req.objectRaw t = .ok obj)
    (hacc : s.accessor obj = .error e) :
    handle m t s predicates req = .errored 400 ("could not get accessor: " ++ e) := by
  simp [handle, hdec, hacc]

/-- C10 witness: concrete run hitting the accessor-failure path. -/
theorem accessor_failure_denies_witness :
    accessorFailScheme.decode "one" 0 = .ok 1 ∧
    accessorFailScheme.accessor 1 = .error "no object meta" ∧
    handle idMutator 0 accessorFailScheme [] ⟨widgetGVK, "one", "bad"⟩ =
      .errored 400 "could not get accessor: no object meta" :=
  ⟨rfl, rfl,
    accessor_failure_denies accessorFailScheme 0 [] ⟨widgetGVK, "one", "bad"⟩ 1
      "no object meta" idMutator rfl rfl⟩

/-- C4 counterexample: the claim's only precondition is that the new
resource decodes and some predicate is false, yet with malformed old-object
bytes the code answers Deny(400) (old bytes are decoded before the
predicates run, handler.go:175-189), not Allow. -/
theorem predicate_false_c4_counterexample :
    intScheme.decode "one" 0 = .ok 1 ∧
    (fun _ : Int => false) ∈ [fun _ : Int => false] ∧
    (fun _ : Int => false) 1 = false ∧
    handle idMutator 0 intScheme [fun _ : Int => false] ⟨widgetGVK, "one", "bad"⟩ =
      .errored 400 "could not decode old object: bad bytes" ∧
    handle idMutator 0 intScheme [fun _ : Int => false] ⟨widgetGVK, "one", "bad"⟩ ≠
      .allowed "" := by
  refine ⟨rfl, List.mem_singleton.mpr rfl, rfl, by decide, by decide⟩

/-- C4 (amended): for every request whose new resource decodes, whose
accessor succeeds, and whose old-object bytes are absent or decode: if some
predicate rejects the decoded resource, the response is Allow with no patch
and the mutator is never invoked (the response is the same for every
mutator) — handler.go:186-189. -/
theorem predicate_false_short_circuits {Obj : Type} (s : SchemeOps Obj) (t : Obj)
    (predicates : List (Obj → Bool)) (req : AdmissionRequest) (obj : Obj)
    (oldObj : Option Obj) (p : Obj → Bool)
    (hdec : s.decode req.objectRaw t = .ok obj)
    (hacc : s.accessor obj = .ok ())
    (hold : decodeOld s t req = .ok oldObj)
    (hp : p ∈ predicates) (hpf : p obj = false) :
    ∀ m : Mutator Obj, handle m t s predicates req = .allowed "" := by
  intro m
  have hev : EvalGeneric obj predicates = false := by
    unfold EvalGeneric
    rw [List.all_eq_false]
    exact ⟨p, hp, by simp [hpf]⟩
  simp [handle, hdec, hacc, hold, hev]

/-- C4 witness: concrete run of the amended claim. -/
theorem predicate_false_short_circuits_witness :
    intScheme.decode "one" 0 = .ok 1 ∧
    (fun _ : Int => false) 1 = false ∧
    handle doubleMutator 0 intScheme [fun _ : Int => false] ⟨widgetGVK, "one", ""⟩ =
      .allowed "" :=
  ⟨rfl, rfl,
    predicate_false_short_circuits intScheme 0 [fun _ : Int => false] ⟨widgetGVK, "one", ""⟩
      1 none (fun _ => false) rfl rfl rfl (List.mem_singleton.mpr rfl) rfl doubleMutator⟩

theorem string_empty_of_length_zero (s : String) (h : s.length = 0) : s = "" := by
  cases s with
  | mk data =>
    have hd : data = [] := List.length_eq_zero.mp (by simpa using h)
    rw [hd]

/-- C7: malformed new-object bytes are answered with Deny(400) and the
decode-error reason; old-object bytes, which are looked at only when
non-empty, are likewise answered with Deny(400) when malformed; in both
cases the response is the same for every mutator, which is therefore never
invoked (handler.go:161-184). -/
theorem decode_failures_deny {Obj : Type} (s : SchemeOps Obj) (t : Obj)
    (predicates : List (Obj → Bool)) (req : AdmissionRequest) :
    (∀ e, s.decode req.objectRaw t = .error e →
      ∀ m : Mutator Obj, handle m t s predicates req =
        .errored 400 ("could not decode request: " ++ e)) ∧
    (∀ obj e, s.decode req.objectRaw t = .ok obj → req.oldObjectRaw ≠ "" →
      s.decode req.oldObjectRaw t = .error e →
      ∀ m : Mutator Obj, (handle m t s predicates req).isDeny400 = true) ∧
    (req.oldObjectRaw = "" → decodeOld s t req = .ok none) := by
  refine ⟨?_, ?_, ?_⟩
  · intro e hdec m
    simp [handle, hdec]
  · intro obj e hdec hne holddec m
    have hol : decodeOld s t req = .error e := by
      unfold decodeOld
      rw [if_pos (fun h0 => hne (string_empty_of_length_zero _ h0)), holddec]
    cases ha : s.accessor obj with
    | error e2 => simp [handle, hdec, ha, Response.isDeny400]
    | ok u => simp [handle, hdec, ha, hol, Response.isDeny400]
  · intro hraw
    unfold decodeOld
    rw [if_neg (by simp [hraw])]

/-- C7 witness: concrete runs of all three parts. -/
theorem decode_failures_deny_witness :
    (handle idMutator 0 intScheme [] ⟨widgetGVK, "bad", ""⟩ =
      .errored 400 "could not decode request: bad bytes") ∧
    ((handle idMutator 0 intScheme [] ⟨widgetGVK, "one", "bad"⟩).isDeny400 = true) ∧
    decodeOld intScheme 0 ⟨widgetGVK, "one", ""⟩ = .ok none :=
  ⟨(decode_failures_deny intScheme 0 [] ⟨widgetGVK, "bad", ""⟩).1 "bad bytes" rfl idMutator,
    (decode_failures_deny intScheme 0 [] ⟨widgetGVK, "one", "bad"⟩).2.1 1 "bad bytes" rfl
      (by decide) rfl idMutator,
    (decode_failures_deny intScheme 0 [] ⟨widgetGVK, "one", ""⟩).2.2 rfl⟩

/-- C5: a request kind with no exact registry match but with an entry for
the same group and kind under the internal version marker is dispatched
with that entry's prototype and mutator instead of failing as unrecognized
(handler.go:126-152). -/
theorem internal_fallback_dispatches {Obj : Type} (h : handler Obj) (req : AdmissionRequest)
    (t : Obj) (m : Mutator Obj)
    (hT : lookupGVK h.typesMap req.kind = none)
    (hM : lookupGVK h.mutatorMap req.kind = none)
    (hiT : findInternal h.typesMap req.kind = some t)
    (hiM : findInternal h.mutatorMap req.kind = some m) :
    h.Handle req = handle m t h.ops h.predicates req := by
  simp [handler.Handle, resolveGVK, hT, hM, hiT, hiM]

/-- C5 witness: a dispatcher holding only an internal-version entry for
group "apps" kind "Widget" serves a "v1" request through that entry. -/
theorem internal_fallback_dispatches_witness :
    lookupGVK [(widgetInternalGVK, (7 : Int))] widgetGVK = none ∧
    findInternal [(widgetInternalGVK, (7 : Int))] widgetGVK = some 7 ∧
    handler.Handle
      { typesMap := [(widgetInternalGVK, (7 : Int))],
        mutatorMap := [(widgetInternalGVK, idMutator)],
        predicates := [], ops := intScheme }
      ⟨widgetGVK, "one", ""⟩ =
      handle idMutator 7 intScheme [] ⟨widgetGVK, "one", ""⟩ :=
  ⟨by decide, rfl,
    internal_fallback_dispatches
      { typesMap := [(widgetInternalGVK, (7 : Int))],
        mutatorMap := [(widgetInternalGVK, idMutator)],
        predicates := [], ops := intScheme }
      ⟨widgetGVK, "one", ""⟩ 7 idMutator (by decide) rfl (by decide) rfl⟩

/-- C6: a request kind matching no registry entry, neither exactly nor via
the internal-version fallback, is answered with Deny(400) and the
"unexpected request kind" reason before any decoding or mutator invocation
(handler.go:126-152). -/
theorem unknown_kind_denied {Obj : Type} (h : handler Obj) (req : AdmissionRequest)
    (hT : lookupGVK h.typesMap req.kind = none)
    (hiT : findInternal h.typesMap req.kind = none)
    (_hM : lookupGVK h.mutatorMap req.kind = none)
    (_hiM : findInternal h.mutatorMap req.kind = none) :
    h.Handle req = .errored 400 ("unexpected request kind " ++ req.kind.toText) := by
  simp [handler.Handle, resolveGVK, hT, hiT]

/-- C6 witness: an empty dispatcher denies every request as unrecognized. -/
theorem unknown_kind_denied_witness :
    handler.Handle
      { typesMap := ([] : List (GroupVersionKind × Int)), mutatorMap := [],
        predicates := [], ops := intScheme }
      ⟨widgetGVK, "one", ""⟩ =
      .errored 400 "unexpected request kind apps/v1, Kind=Widget" :=
  unknown_kind_denied
    { typesMap := ([] : List (GroupVersionKind × Int)), mutatorMap := [],
      predicates := [], ops := intScheme }
    ⟨widgetGVK, "one", ""⟩ rfl rfl rfl rfl

/-- C2 counterexample: a request in which resolution, decoding, predicate
evaluation and the Mutate call all succeed, the mutator is no Validator and
changed the resource — yet the response is neither Allow-with-patch nor
plain Allow, because serialization fails and handler.go:201-208 answers
Deny(500). -/
theorem patch_iff_c2_counterexample :
    marshalFailScheme.decode "one" 0 = .ok 1 ∧
    EvalGeneric 1 ([] : List (Int → Bool)) = true ∧
    doubleMutator.Mutate 1 none = .ok 2 ∧
    doubleMutator.isValidatorAsserted = false ∧
    marshalFailScheme.deepEqual 1 2 = false ∧
    handle doubleMutator 0 marshalFailScheme [] ⟨widgetGVK, "one", ""⟩ =
      .errored 500 "marshal boom" ∧
    (handle doubleMutator 0 marshalFailScheme [] ⟨widgetGVK, "one", ""⟩).hasPatch = false :=
  ⟨rfl, rfl, rfl, rfl, by decide, by decide, by decide⟩

/-- C2 (amended): for every request in which resolution, decoding, the
metadata accessor, predicate evaluation, the Mutate call and both
serializations succeed, the response is Allow-with-patch exactly when the
mutator is no Validator and the post-mutate object differs from the
pre-mutate one under the semantic equality; in every other such case it is
Allow with no patch (handler.go:198-214). -/
theorem patch_iff_mutated_nonvalidator {Obj : Type} (s : SchemeOps Obj) (t : Obj)
    (predicates : List (Obj → Bool)) (req : AdmissionRequest) (m : Mutator Obj)
    (obj newObj : Obj) (oldObj : Option Obj) (bo bn : JsonObj)
    (hdec : s.decode req.objectRaw t = .ok obj)
    (hacc : s.accessor obj = .ok ())
    (hold : decodeOld s t req = .ok oldObj)
    (hpred : EvalGeneric obj predicates = true)
    (hmut : m.Mutate obj oldObj = .ok newObj)
    (hmo : s.marshal obj = .ok bo)
    (hmn : s.marshal newObj = .ok bn) :
    ((handle m t s predicates req).hasPatch = true ↔
      (m.isValidatorAsserted = false ∧ s.deepEqual obj newObj = false)) ∧
    ((m.isValidatorAsserted = true ∨ s.deepEqual obj newObj = true) →
      handle m t s predicates req = .allowed "") := by
  have hcase : handle m t s predicates req =
      (if m.isValidatorAsserted = false ∧ s.deepEqual obj newObj = false then
        .allowWithPatch (createPatch bo bn)
      else .allowed "") := by
    cases hv : m.isValidatorAsserted <;> cases he : s.deepEqual obj newObj <;>
      simp [handle, hdec, hacc, hold, hpred, hmut, hv, he, hmo, hmn, PatchResponseFromRaw]
  rw [hcase]
  by_cases hcond : m.isValidatorAsserted = false ∧ s.deepEqual obj newObj = false
  · rw [if_pos hcond]
    refine ⟨by simp [Response.hasPatch, hcond], ?_⟩
    intro hor
    rcases hcond with ⟨h1, h2⟩
    rcases hor with h3 | h3
    · rw [h1] at h3
      exact absurd h3 (by simp)
    · rw [h2] at h3
      exact absurd h3 (by simp)
  · rw [if_neg hcond]
    exact ⟨by simpa [Response.hasPatch] using hcond, fun _ => rfl⟩

/-- C2 witness: the spec §8 example — the size-doubling mutator on a size-1
Widget concretely realizes the patch side of the equivalence. -/
theorem patch_iff_mutated_nonvalidator_witness :
    intScheme.decode "one" 0 = .ok 1 ∧
    (((handle doubleMutator 0 intScheme [] ⟨widgetGVK, "one", ""⟩).hasPatch = true ↔
      (doubleMutator.isValidatorAsserted = false ∧ intScheme.deepEqual 1 2 = false)) ∧
     ((doubleMutator.isValidatorAsserted = true ∨ intScheme.deepEqual 1 2 = true) →
      handle doubleMutator 0 intScheme [] ⟨widgetGVK, "one", ""⟩ = .allowed "")) :=
  ⟨rfl, patch_iff_mutated_nonvalidator intScheme 0 [] ⟨widgetGVK, "one", ""⟩ doubleMutator
    1 2 none [("size", 1)] [("size", 2)] rfl rfl rfl rfl rfl rfl rfl⟩

/-- C3: a non-Validator mutator that changes the decoded resource yields
Allow-with-patch, and applying the patch document to the serialized
"before" form yields exactly the serialized "after" form (round-trip law);
the serialized forms are canonical as spec §4.5 requires. -/
theorem mutation_patch_roundtrip {Obj : Type} (s : SchemeOps Obj) (t : Obj)
    (predicates : List (Obj → Bool)) (req : AdmissionRequest) (m : Mutator Obj)
    (obj newObj : Obj) (oldObj : Option Obj) (bo bn : JsonObj)
    (hdec : s.decode req.objectRaw t = .ok obj)
    (hacc : s.accessor obj = .ok ())
    (hold : decodeOld s t req = .ok oldObj)
    (hpred : EvalGeneric obj predicates = true)
    (hmut : m.Mutate obj oldObj = .ok newObj)
    (hv : m.isValidatorAsserted = false)
    (he : s.deepEqual obj newObj = false)
    (hmo : s.marshal obj = .ok bo)
    (hmn : s.marshal newObj = .ok bn)
    (hcb : Canonical bo) (hcn : Canonical bn) :
    handle m t s predicates req = .allowWithPatch (createPatch bo bn) ∧
    applyPatch (createPatch bo bn) bo = bn := by
  constructor
  · simp [handle, hdec, hacc, hold, hpred, hmut, hv, he, hmo, hmn, PatchResponseFromRaw]
  · exact applyPatch_createPatch bo bn hcb hcn

/-- C3 witness: the spec §8 example — doubling size 1 produces a patch that
rewrites the serialized form 'size 1' into 'size 2'. -/
theorem mutation_patch_roundtrip_witness :
    handle doubleMutator 0 intScheme [] ⟨widgetGVK, "one", ""⟩ =
      .allowWithPatch (createPatch [("size", 1)] [("size", 2)]) ∧
    applyPatch (createPatch [("size", 1)] [("size", 2)]) [("size", 1)] = [("size", 2)] :=
  mutation_patch_roundtrip intScheme 0 [] ⟨widgetGVK, "one", ""⟩ doubleMutator 1 2 none
    [("size", 1)] [("size", 2)] rfl rfl rfl rfl rfl rfl rfl rfl rfl
    (by simp [Canonical]) (by simp [Canonical])

/-- Whether the scheme resolves every type declared in the given builder
entries (the only failure source of `Build`, handler.go:222-225). -/
def allResolve {Obj : Type} (s : SchemeOps Obj) (entries : List (Mutator Obj × List Obj)) :
    Bool :=
  entries.all (fun e => e.2.all (fun t => (s.gvkFor t).isOk))

theorem buildTypesMap_total {Obj : Type} (s : SchemeOps Obj) (ts : List Obj)
    (acc : List (GroupVersionKind × Obj))
    (hres : (ts.all (fun t => (s.gvkFor t).isOk)) = true) :
    ∃ r, buildTypesMap s ts acc = .ok r := by
  induction ts generalizing acc with
  | nil => exact ⟨acc, rfl⟩
  | cons t rest ih =>
    rw [List.all_cons, Bool.and_eq_true] at hres
    cases hg : s.gvkFor t with
    | error e =>
      rw [hg] at hres
      have hfalse : (Except.error e : Except String GroupVersionKind).isOk = false := rfl
      rw [hfalse] at hres
      exact absurd hres.1 (by simp)
    | ok g2 =>
      obtain ⟨r, hr⟩ := ih (putGVK acc g2 t) hres.2
      exact ⟨r, by rw [buildTypesMap, hg]; exact hr⟩

theorem buildLoop_total {Obj : Type} (s : SchemeOps Obj)
    (entries : List (Mutator Obj × List Obj)) (tm : List (GroupVersionKind × Obj))
    (mm : List (GroupVersionKind × Mutator Obj))
    (hres : allResolve s entries = true) :
    ∃ maps, buildLoop s entries tm mm = .ok maps := by
  induction entries generalizing tm mm with
  | nil => exact ⟨(tm, mm), rfl⟩
  | cons e rest ih =>
    obtain ⟨m, ts⟩ := e
    rw [allResolve, List.all_cons, Bool.and_eq_true] at hres
    obtain ⟨r, hr⟩ := buildTypesMap_total s ts [] hres.1
    obtain ⟨maps, hmaps⟩ := ih (insertEntries m r tm mm).1 (insertEntries m r tm mm).2 hres.2
    exact ⟨maps, by rw [buildLoop, hr]; exact hmaps⟩

/-- C8: after a successful `Build` — under any range order over the
builder's entries — every GroupVersionKind with an entry in the mutator
registry also has one in the types registry (handler.go:86-96 writes both
registries under the same keys). -/
theorem build_mutator_keys_have_types {Obj : Type} (b : HandlerBuilder Obj)
    (entries : List (Mutator Obj × List Obj)) (h2 : handler Obj) (g : GroupVersionKind)
    (hb : b.BuildWith entries = .ok h2)
    (hm : (lookupGVK h2.mutatorMap g).isSome = true) :
    (lookupGVK h2.typesMap g).isSome = true := by
  unfold HandlerBuilder.BuildWith at hb
  cases hbl : buildLoop b.scheme entries [] [] with
  | error e =>
    rw [hbl] at hb
    exact absurd hb (by simp)
  | ok maps =>
    rw [hbl] at hb
    obtain ⟨tm2, mm2⟩ := maps
    have hh := Except.ok.inj hb
    subst hh
    obtain ⟨h1x, h2x⟩ := buildLoop_lookup b.scheme entries [] tm2 [] mm2 hbl g
    replace hm : (lookupGVK mm2 g).isSome = true := hm
    rw [h2x] at hm
    show (lookupGVK tm2 g).isSome = true
    rw [h1x]
    cases hw : buildWinner b.scheme g entries with
    | some w => simp
    | none =>
      rw [hw] at hm
      exact absurd hm (by simp [lookupGVK])

/-- The handler a one-mutator build produces (used by the C8 witness). -/
def c8handler : handler Int :=
  { typesMap := [(widgetGVK, 1)], mutatorMap := [(widgetGVK, idMutator)],
    predicates := [], ops := intScheme }

/-- C8 witness: a concrete build whose mutator-registry key is also a
types-registry key. -/
theorem build_mutator_keys_have_types_witness :
    ((NewBuilder intScheme).WithMutator idMutator [1]).BuildWith [(idMutator, [1])] =
      .ok c8handler ∧
    (lookupGVK c8handler.mutatorMap widgetGVK).isSome = true ∧
    (lookupGVK c8handler.typesMap widgetGVK).isSome = true :=
  ⟨rfl, rfl,
    build_mutator_keys_have_types ((NewBuilder intScheme).WithMutator idMutator [1])
      [(idMutator, [1])] c8handler widgetGVK rfl rfl⟩

/-- A plain mutator registered first for the Widget kind (adds 1). -/
def firstMutator : Mutator Int :=
  { Mutate := fun o _ => .ok (o + 1), isValidatorAsserted := false }

/-- A different plain mutator registered second for the same kind (adds 2). -/
def secondMutator : Mutator Int :=
  { Mutate := fun o _ => .ok (o + 2), isValidatorAsserted := false }

/-- A builder on which the Widget kind is declared twice, in two different
registration calls: first with prototype 1 and `firstMutator`, then with
prototype 2 and `secondMutator`. -/
def c9builder : HandlerBuilder Int :=
  ((NewBuilder intScheme).WithMutator firstMutator [1]).WithMutator secondMutator [2]

/-- A range order over the builder's two map entries that Go may use: the
second registration first. -/
def c9entries : List (Mutator Int × List Int) := [(secondMutator, [2]), (firstMutator, [1])]

/-- The prototype the built types registry then holds for the Widget kind. -/
def c9proto : Option Int :=
  match c9builder.BuildWith c9entries with
  | .ok h => lookupGVK h.typesMap widgetGVK
  | .error _ => none

/-- C9 counterexample: the Widget kind is declared in two registration
calls, the most recent being (secondMutator, prototype 2); under a
permutation of the builder entries — a range order Go's unspecified map
iteration may produce at handler.go:86 — the built registry maps the kind
to prototype 1 of the first registration, so "the last declaration wins"
does not hold. -/
theorem build_last_write_c9_counterexample :
    c9entries.Perm c9builder.mutatorMap ∧ c9proto = some 1 ∧ c9proto ≠ some 2 := by
  refine ⟨?_, rfl, by decide⟩
  show c9entries.Perm [(firstMutator, [1]), (secondMutator, [2])]
  exact List.Perm.swap (firstMutator, [1]) (secondMutator, [2]) []

/-- C9 (amended): duplicate declarations of a GroupVersionKind never make
`Build` fail (only an unresolvable type does), and the built registries map
such a kind to the prototype and mutator of the last entry, in `Build`'s
processing order over the builder map (Go's unspecified range order, not
the registration order), whose types resolve to that kind — within that
entry the last resolving type wins. -/
theorem build_processing_order_wins {Obj : Type} (b : HandlerBuilder Obj)
    (entries : List (Mutator Obj × List Obj)) (h2 : handler Obj) (g : GroupVersionKind) :
    (allResolve b.scheme entries = true → ∃ h3, b.BuildWith entries = .ok h3) ∧
    (b.BuildWith entries = .ok h2 →
      lookupGVK h2.typesMap g = (buildWinner b.scheme g entries).map Prod.fst ∧
      lookupGVK h2.mutatorMap g = (buildWinner b.scheme g entries).map Prod.snd) := by
  constructor
  · intro hres
    obtain ⟨maps, hmaps⟩ := buildLoop_total b.scheme entries [] [] hres
    exact ⟨_, by unfold HandlerBuilder.BuildWith; rw [hmaps]⟩
  · intro hb
    unfold HandlerBuilder.BuildWith at hb
    cases hbl : buildLoop b.scheme entries [] [] with
    | error e =>
      rw [hbl] at hb
      exact absurd hb (by simp)
    | ok maps =>
      rw [hbl] at hb
      obtain ⟨tm2, mm2⟩ := maps
      have hh := Except.ok.inj hb
      subst hh
      obtain ⟨h1x, h2x⟩ := buildLoop_lookup b.scheme entries [] tm2 [] mm2 hbl g
      constructor
      · show lookupGVK tm2 g = _
        rw [h1x]
        cases buildWinner b.scheme g entries <;> rfl
      · show lookupGVK mm2 g = _
        rw [h2x]
        cases buildWinner b.scheme g entries <;> rfl

/-- The handler that building `c9builder` under the `c9entries` order
produces. -/
def c9handlerResult : handler Int :=
  { typesMap := [(widgetGVK, 1)], mutatorMap := [(widgetGVK, firstMutator)],
    predicates := [], ops := intScheme }

/-- C9 witness: on the duplicate-declaration builder, the build succeeds
and the registries hold exactly the processing-order winner. -/
theorem build_processing_order_wins_witness :
    allResolve intScheme c9entries = true ∧
    (∃ h3, c9builder.BuildWith c9entries = .ok h3) ∧
    (lookupGVK c9handlerResult.typesMap widgetGVK =
      (buildWinner intScheme widgetGVK c9entries).map Prod.fst ∧
     lookupGVK c9handlerResult.mutatorMap widgetGVK =
      (buildWinner intScheme widgetGVK c9entries).map Prod.snd) :=
  ⟨rfl, (build_processing_order_wins c9builder c9entries c9handlerResult widgetGVK).1 rfl,
    (build_processing_order_wins c9builder c9entries c9handlerResult widgetGVK).2 rfl⟩
